import Mathlib

/-!
Verification model of the `wsm` MongoDB session-store for Baileys
(`src/Mongo/index.ts`, `src/Utils/index.ts`, `src/Types/index.ts`).

The TypeScript source is shallowly embedded: JSON-compatible runtime values
(including Node `Buffer`s) become the inductive type `JVal`, the
`BufferJSON.replacer`/`reviver` serialization pair becomes `encodeJ`/`decodeJ`,
the Mongo collection becomes a list of records, and the session manager's
operations become pure state-passing functions.  Node's base64 codec
(`Buffer.prototype.toString('base64')` / `Buffer.from(s, 'base64')`), an
external collaborator of the source, is modelled concretely by
`b64encode`/`b64decode` below.
-/

namespace WSM

/-! ## Base64 (model of Node's codec used by `BufferJSON`) -/

/-- The base64 alphabet, as used by Node for `buf.toString('base64')`. -/
def b64Alphabet : List Char :=
  "ABCDEFGHIJKLMNOPQRSTUVWXYZabcdefghijklmnopqrstuvwxyz0123456789+/".toList

/-- Character for a 6-bit group. -/
def sextetChar (n : Nat) : Char := b64Alphabet.getD n 'A'

/-- Inverse lookup of `sextetChar` (64 for characters outside the alphabet). -/
def charSextet (c : Char) : Nat := b64Alphabet.indexOf c

/-- Pack bytes into 6-bit groups, three bytes at a time (final partial group
as emitted by Node before the `=` padding). -/
def bytesToSextets : List Nat → List Nat
  | [] => []
  | [a] => [a / 4, a % 4 * 16]
  | [a, b] => [a / 4, a % 4 * 16 + b / 16, b % 16 * 4]
  | a :: b :: c :: rest =>
      a / 4 :: (a % 4 * 16 + b / 16) :: (b % 16 * 4 + c / 64) :: c % 64 ::
        bytesToSextets rest

/-- Unpack 6-bit groups back into bytes (ignoring a trailing group that is
too short to carry a byte). -/
def sextetsToBytes : List Nat → List Nat
  | [s1, s2] => [s1 * 4 + s2 / 16]
  | [s1, s2, s3] => [s1 * 4 + s2 / 16, s2 % 16 * 16 + s3 / 4]
  | s1 :: s2 :: s3 :: s4 :: rest =>
      (s1 * 4 + s2 / 16) :: (s2 % 16 * 16 + s3 / 4) :: (s3 % 4 * 64 + s4) ::
        sextetsToBytes rest
  | _ => []

/-- Number of `=` padding characters Node appends. -/
def b64padding (len : Nat) : Nat :=
  match len % 3 with
  | 1 => 2
  | 2 => 1
  | _ => 0

/-- Model of `Buffer.from(bytes).toString('base64')`. -/
def b64encode (bs : List Nat) : String :=
  String.mk ((bytesToSextets bs).map sextetChar ++ List.replicate (b64padding bs.length) '=')

/-- Model of `Buffer.from(s, 'base64')` for well-formed inputs: padding is
dropped and 6-bit groups are reassembled into bytes.  (Node additionally
skips other non-alphabet characters; that leniency is irrelevant here.) -/
def b64decode (s : String) : List Nat :=
  sextetsToBytes ((s.toList.filter (fun c => c ≠ '=')).map charSextet)

/-! ## JSON-compatible runtime values

`JVal` models the JavaScript values the store manipulates: JSON primitives,
Node `Buffer`s (`jbuf`), arrays and plain objects.  Arrays and objects are
separate inductives (`JArr`, `JObj`) so that all recursion stays structural.
Object field order models JS insertion order; real JS objects have unique
keys, and property access is modelled by first-match lookup. -/

mutual
inductive JVal where
  | jnull : JVal
  | jbool (b : Bool) : JVal
  | jnum (n : Int) : JVal
  | jnan : JVal
  | jstr (s : String) : JVal
  | jbuf (bs : List Nat) : JVal
  | jarr (xs : JArr) : JVal
  | jobj (fs : JObj) : JVal
deriving DecidableEq
inductive JArr where
  | nil : JArr
  | cons (hd : JVal) (tl : JArr) : JArr
deriving DecidableEq
inductive JObj where
  | nil : JObj
  | cons (k : String) (v : JVal) (tl : JObj) : JObj
deriving DecidableEq
end

/-- Property lookup on an object (`value.someKey`). -/
def jlookup : JObj → String → Option JVal
  | .nil, _ => none
  | .cons k v tl, key => if k = key then some v else jlookup tl key

/-- JavaScript truthiness of a `JVal` (`if (value) ...`).  `jnan` models the
number value `NaN`, which is falsy. -/
def jTruthy : JVal → Bool
  | .jnull => false
  | .jbool b => b
  | .jnum n => decide (n ≠ 0)
  | .jnan => false
  | .jstr s => decide (s ≠ "")
  | .jbuf _ => true
  | .jarr _ => true
  | .jobj _ => true

/-- Digits of a decimal string, folded into a `Nat`. -/
def digitsVal (cs : List Char) : Nat :=
  cs.foldl (fun a c => a * 10 + (c.toNat - 48)) 0

/-- Model of JS `parseInt(s, 10)`: skip leading whitespace, optional sign,
longest digit prefix; `none` models the `NaN` result. -/
def parseIntJs (s : String) : Option Int :=
  let core : List Char → Option Int := fun cs =>
    let ds := cs.takeWhile Char.isDigit
    if ds.isEmpty then none else some (Int.ofNat (digitsVal ds))
  let cs := s.toList.dropWhile (fun c => c = ' ' ∨ c = '\t' ∨ c = '\n' ∨ c = '\r')
  match cs with
  | '-' :: rest => (core rest).map Int.neg
  | '+' :: rest => core rest
  | _ => core cs

/-- Model of Node's per-element byte coercion in `Buffer.from(array)` /
`new Uint8Array(array)`: integers are taken mod 256, booleans become 0/1,
canonical decimal strings their value, everything else (null, objects,
non-numeric strings — all of which coerce through `NaN`) becomes 0. -/
def toByte : JVal → Nat
  | .jnum n => (n % 256).toNat
  | .jnan => 0
  | .jbool b => if b then 1 else 0
  | .jstr s =>
      match parseIntJs s with
      | some n => if s.toList.all Char.isDigit ∧ s ≠ "" then (n % 256).toNat else 0
      | none => 0
  | _ => 0

/-- Elements of a modelled array as a Lean list. -/
def JArr.toList : JArr → List JVal
  | .nil => []
  | .cons hd tl => hd :: tl.toList

/-! ## `BufferJSON` codec (src/Utils/index.ts, lines 195-233)

`encodeJ` models `JSON.stringify(·, BufferJSON.replacer)` composed with
`JSON.parse` of the resulting text:  the output `JVal` is the wire-level JSON
value actually persisted.  A `Buffer` first passes through
`Buffer.prototype.toJSON` (giving `{type:'Buffer', data:[...bytes]}`) and the
replacer then rewrites it to `{type:'Buffer', data:<base64>}`; a plain object
whose `type` field is `'Buffer'` and whose `data` field is an array is
rewritten the same way (the replacer cannot tell it apart from a real
`Buffer`).

`decodeJ` models `JSON.parse(·, BufferJSON.reviver)`, which runs bottom-up:
any object whose (revived) `type` field is `'Buffer'` becomes
`Buffer.from(value.data, 'base64')` — a base64 decode when `data` is a
string, a byte-array copy when it is an array or an already-revived buffer,
and a thrown `TypeError` (wrapped into `SessionValidationError`) otherwise. -/

mutual
def encodeJ : JVal → JVal
  | .jnull => .jnull
  | .jbool b => .jbool b
  | .jnum n => .jnum n
  | .jnan => .jnull
  | .jstr s => .jstr s
  | .jbuf bs =>
      .jobj (.cons "type" (.jstr "Buffer") (.cons "data" (.jstr (b64encode bs)) .nil))
  | .jarr xs => .jarr (encodeArr xs)
  | .jobj fs =>
      if jlookup fs "type" = some (.jstr "Buffer") then
        match jlookup fs "data" with
        | some (.jarr ds) =>
            .jobj (.cons "type" (.jstr "Buffer")
              (.cons "data" (.jstr (b64encode (ds.toList.map toByte))) .nil))
        | _ => .jobj (encodeObj fs)
      else .jobj (encodeObj fs)
def encodeArr : JArr → JArr
  | .nil => .nil
  | .cons hd tl => .cons (encodeJ hd) (encodeArr tl)
def encodeObj : JObj → JObj
  | .nil => .nil
  | .cons k v tl => .cons k (encodeJ v) (encodeObj tl)
end

/-- The reviver's buffer branch: `Buffer.from(data, 'base64')` on the already
revived `data` field (`none` models an absent field, i.e. `undefined`). -/
def reviveBufferData : Option JVal → Except Unit JVal
  | some (.jstr s) => .ok (.jbuf (b64decode s))
  | some (.jarr ds) => .ok (.jbuf (ds.toList.map toByte))
  | some (.jbuf bs) => .ok (.jbuf bs)
  | _ => .error ()

mutual
def decodeJ : JVal → Except Unit JVal
  | .jnull => .ok .jnull
  | .jbool b => .ok (.jbool b)
  | .jnum n => .ok (.jnum n)
  | .jnan => .ok .jnan
  | .jstr s => .ok (.jstr s)
  | .jbuf bs => .ok (.jbuf bs)
  | .jarr xs =>
      match decodeArr xs with
      | .error e => .error e
      | .ok xs' => .ok (.jarr xs')
  | .jobj fs =>
      match decodeObj fs with
      | .error e => .error e
      | .ok fs' =>
          if jlookup fs' "type" = some (.jstr "Buffer") then
            reviveBufferData (jlookup fs' "data")
          else .ok (.jobj fs')
def decodeArr : JArr → Except Unit JArr
  | .nil => .ok .nil
  | .cons hd tl =>
      match decodeJ hd with
      | .error e => .error e
      | .ok hd' =>
          match decodeArr tl with
          | .error e => .error e
          | .ok tl' => .ok (.cons hd' tl')
def decodeObj : JObj → Except Unit JObj
  | .nil => .ok .nil
  | .cons k v tl =>
      match decodeJ v with
      | .error e => .error e
      | .ok v' =>
          match decodeObj tl with
          | .error e => .error e
          | .ok tl' => .ok (.cons k v' tl')
end

/-! Values for which the codec can be exact: buffers hold genuine bytes and
no plain object spoofs the `{type:'Buffer'}` marker. -/

mutual
def goodVal : JVal → Bool
  | .jnull => true
  | .jbool _ => true
  | .jnum _ => true
  | .jnan => false
  | .jstr _ => true
  | .jbuf bs => bs.all (fun b => decide (b < 256))
  | .jarr xs => goodArr xs
  | .jobj fs => decide (jlookup fs "type" ≠ some (.jstr "Buffer")) && goodObj fs
def goodArr : JArr → Bool
  | .nil => true
  | .cons hd tl => goodVal hd && goodArr tl
def goodObj : JObj → Bool
  | .nil => true
  | .cons _ v tl => goodVal v && goodObj tl
end


/-! ## ValidationUtils (src/Utils/index.ts, lines 289-334) -/

/-- A character allowed by the `[a-zA-Z0-9_-]` classes of the two regexes. -/
def isIdentChar (c : Char) : Bool :=
  (('a' ≤ c ∧ c ≤ 'z') ∨ ('A' ≤ c ∧ c ≤ 'Z') ∨ ('0' ≤ c ∧ c ≤ '9')
    ∨ c = '_' ∨ c = '-' : Bool)

/-- Model of `ValidationUtils.isValidSessionId`: `/^[a-zA-Z0-9_-]{1,100}$/`
(the separate `!session` guard is subsumed: `""` fails the regex). -/
def isValidSessionId (s : String) : Bool :=
  decide (1 ≤ s.length) && decide (s.length ≤ 100) && s.toList.all isIdentChar

/-- Model of `ValidationUtils.isValidCollectionName`: `/^[a-zA-Z0-9_-]{1,120}$/` and not
starting with `"system."`. -/
def isValidCollectionName (s : String) : Bool :=
  decide (1 ≤ s.length) && decide (s.length ≤ 120) && s.toList.all isIdentChar
    && !(s.startsWith "system.")

/-! ## Key namespace policy

`keys.get`/`keys.set` build the per-record id `` `${type}-${id}` `` (Mongo/index.ts
lines 340, 366) and `queryDocument`/`writeData`/`removeData` prepend
`sessionPrefix = session + "-"` (lines 98, 195, 244, 269), so the full storage
key of `(session, category, id)` is `session + "-" + category + "-" + id`.
The credentials record uses the shorter composite `session + "-creds"`
(line 320 writes id `"creds"`). -/

/-- The six key categories (keys of `SignalDataTypeMap`, Types/index.ts). -/
def signalCategories : List String :=
  ["session", "pre-key", "sender-key", "app-state-sync-key",
   "app-state-sync-version", "sender-key-memory"]

/-- Full storage key of a `(session, category, id)` triple. -/
def resolveKey (session category id : String) : String :=
  session ++ "-" ++ category ++ "-" ++ id

/-- Storage key of the singleton credentials record. -/
def credsKey (session : String) : String :=
  session ++ "-creds"

/-! ## Timestamp normalization (src/Utils/index.ts, lines 118-148) -/

/-! Default JS stringification (`String(v)` / `v.toString()`), as consulted by
`parseTimestamp`'s fallback branch.  Arrays join their elements with `","`
(null becoming empty), plain objects print `"[object Object]"`, buffers
UTF-8-decode their bytes (modelled for the ASCII range, the only one used). -/

mutual
def jsToString : JVal → String
  | .jnull => "null"
  | .jbool b => if b then "true" else "false"
  | .jnum n => toString n
  | .jnan => "NaN"
  | .jstr s => s
  | .jbuf bs => String.mk (bs.map Char.ofNat)
  | .jarr xs => jsToStringArr xs
  | .jobj _ => "[object Object]"
def jsToStringArr : JArr → String
  | .nil => ""
  | .cons hd .nil => jsToStringElem hd
  | .cons hd tl => jsToStringElem hd ++ "," ++ jsToStringArr tl
def jsToStringElem : JVal → String
  | .jnull => ""
  | v => jsToString v
end

/-- Model of `TimestampUtils.parseTimestamp` on a JSON-parsed value (the shape that
reaches it through `fromObject` inside `keys.get`): such values carry no
`toNumber` method, but every non-null one inherits `toString`.  `Except.error`
models the thrown `SessionValidationError`; `.ok none` models returning the
number `NaN` (the fallback `parseInt(timestamp.toString(), 10)` result is not
NaN-checked). -/
def parseTimestampJ : JVal → Except Unit (Option Int)
  | .jstr s =>
      match parseIntJs s with
      | none => .error ()
      | some n => .ok (some n)
  | .jnum n => .ok (some n)
  | .jnan => .ok none
  | v => if jTruthy v then .ok (parseIntJs (jsToString v)) else .error ()

/-- A live JS value handed to `TimestampUtils.parseTimestamp` directly:
a string, a number (`num none` is `NaN`, which `typeof` still classes as a
number), a `Long`-like object with a `toNumber` accessor, an object exposing
only generic stringification, or `null`/`undefined`. -/
inductive TSInput where
  | str (s : String) : TSInput
  | num (n : Option Int) : TSInput
  | objToNumber (n : Option Int) : TSInput
  | objToString (s : String) : TSInput
  | nullish : TSInput
deriving DecidableEq

/-- Model of `TimestampUtils.parseTimestamp` (lines 124-147): strings are parsed base-10
and NaN-checked; numbers pass through; objects with `toNumber` use it; other
truthy objects fall back to `parseInt(toString(), 10)` with **no** NaN check;
anything else throws `SessionValidationError` (modelled by `.error`). -/
def parseTimestamp : TSInput → Except Unit (Option Int)
  | .str s =>
      match parseIntJs s with
      | none => .error ()
      | some n => .ok (some n)
  | .num n => .ok n
  | .objToNumber n => .ok n
  | .objToString s => .ok (parseIntJs s)
  | .nullish => .error ()

/-! ## `fromObject` (src/Utils/index.ts, lines 156-189) -/

/-- JS `a || b`. -/
def jsOr (a b : JVal) : JVal :=
  if jTruthy a then a else b

/-- Optional-chained property access `v?.k` with `undefined` collapsed to
`jnull` (both are falsy, neither is an array — the only uses made of it). -/
def jgetD (v : JVal) (k : String) : JVal :=
  match v with
  | .jobj fs => (jlookup fs k).getD .jnull
  | _ => .jnull

/-- The `keyData` normalization of `fromObject`: an array becomes
`new Uint8Array(array)`, a `Uint8Array`/`Buffer` is kept, anything else starts
as `new Uint8Array()`; afterwards a *string* `keyData` is replaced by
`CryptoUtils.allocateForBase64` — which only allocates zeroed storage of the
decoded size, it never writes the decoded bytes. -/
def allocateForBase64 (s : String) : List Nat :=
  if s.length = 0 then [0]
  else
    let n := paddingCount s
    List.replicate (s.length * 3 / 4 - n) 0
where
  /-- Number of trailing `=` characters counted by the source's loop. -/
  paddingCount (s : String) : Nat :=
    ((s.toList.reverse.takeWhile (fun c => c = '=')).length)

def normalizeKeyData (kd : JVal) : JVal :=
  match kd with
  | .jstr s => .jbuf (allocateForBase64 s)
  | .jarr ds => .jbuf (ds.toList.map toByte)
  | .jbuf bs => .jbuf bs
  | _ => .jbuf []

/-- Model of `fromObject`: rebuilds the structured app-state-sync value.  The
fingerprint defaults use JS `||` (so a *zero* `currentIndex` also falls back
to `rawId`), `deviceIndexes` defaults to `[]` unless it is an array, and the
timestamp is normalized (a parse failure throws, which the enclosing
`try`/`catch` rethrows as `SessionValidationError`). -/
def fromObject (args : JVal) : Except Unit JVal :=
  let fp := jgetD args "fingerprint"
  let rawId := jsOr (jgetD fp "rawId") (.jnum 0)
  let currentIndex := jsOr (jgetD fp "currentIndex") (jsOr (jgetD fp "rawId") (.jnum 0))
  let deviceIndexes :=
    match jgetD fp "deviceIndexes" with
    | .jarr ds => JVal.jarr ds
    | _ => JVal.jarr .nil
  match parseTimestampJ (jgetD args "timestamp") with
  | .error e => .error e
  | .ok t =>
      .ok (.jobj (.cons "keyData" (normalizeKeyData (jgetD args "keyData"))
        (.cons "fingerprint"
          (.jobj (.cons "rawId" rawId
            (.cons "currentIndex" currentIndex
              (.cons "deviceIndexes" deviceIndexes .nil))))
          (.cons "timestamp" (match t with | some n => JVal.jnum n | none => JVal.jnan)
            .nil))))

/-- Canonical app-state-sync value, in the exact field order `fromObject`
emits. -/
def mkAppDataSync (kd : List Nat) (r ci : Int) (ds : JArr) (t : Int) : JVal :=
  .jobj (.cons "keyData" (.jbuf kd)
    (.cons "fingerprint"
      (.jobj (.cons "rawId" (.jnum r)
        (.cons "currentIndex" (.jnum ci)
          (.cons "deviceIndexes" (.jarr ds) .nil))))
      (.cons "timestamp" (.jnum t) .nil)))

/-! ## The Mongo collection (src/Mongo/index.ts, lines 17-53)

One persisted record per storage key: `_id` (the namespaced key), `value`
(the serialized payload, held here as its wire-level `JVal`), and a copy of
the session name.  The schema's `_id` uniqueness is Mongo's; the model keeps
records in a list and `updateOne`-upserts in place.  Timestamps
(`createdAt`/`updatedAt`) carry no behavioural content and are omitted. -/

structure SessionRecord where
  docId : String
  value : JVal
  session : String
deriving DecidableEq

abbrev Store := List SessionRecord

/-- Model of `SessionModel.findById(fullId).lean()`. -/
def findRec (st : Store) (k : String) : Option SessionRecord :=
  st.find? (fun r => r.docId = k)

/-- Model of `SessionModel.updateOne({_id: fullId}, {value, session, updatedAt}, {upsert: true})`. -/
def upsertRec : Store → String → JVal → String → Store
  | [], k, v, s => [⟨k, v, s⟩]
  | r :: rest, k, v, s =>
      if r.docId = k then ⟨k, v, s⟩ :: rest
      else r :: upsertRec rest k v s

/-- Model of `SessionModel.deleteOne({_id: fullId})` (a no-op when absent; `_id`s are
unique, so removing every match is the same record). -/
def deleteRec (st : Store) (k : String) : Store :=
  st.filter (fun r => r.docId ≠ k)

/-- Outcomes of the underlying store for each physical operation, keyed by the
full `_id`: `some e` makes that operation fail (connection loss, retry
exhaustion, ...), `none` lets it succeed.  `executeWithRetry` is modelled
separately (see `retryGo`); here an oracle entry stands for the overall
result of the already-retried gateway call. -/
structure StoreOracle where
  readFails : String → Option String
  writeFails : String → Option String
  deleteFails : String → Option String

def noFailures : StoreOracle :=
  ⟨fun _ => none, fun _ => none, fun _ => none⟩

/-! ## MongoSessionManager private helpers (src/Mongo/index.ts, lines 193-276) -/

/-- Model of `readData(id)`: query by `sessionPrefix + id`; absent record is `null`;
a present record's payload is `JSON.parse`d with `BufferJSON.reviver`, and a
parse failure is wrapped into `SessionValidationError` (connection errors
pass through unchanged).  (The source's `!data.value` guard cannot fire on
records produced by `writeData`: serialized payloads are non-empty strings.) -/
def readData (oc : StoreOracle) (sess : String) (st : Store) (id : String) :
    Except String (Option JVal) :=
  let fullId := sess ++ "-" ++ id
  match oc.readFails fullId with
  | some e => .error e
  | none =>
      match findRec st fullId with
      | none => .ok none
      | some r =>
          match decodeJ r.value with
          | .error _ => .error ("Failed to read data for ID: " ++ id)
          | .ok v => .ok (some v)

/-- Model of `writeData(id, value)`: serialize with `BufferJSON.replacer` and upsert
under `sessionPrefix + id`, stamping the session name. -/
def writeData (oc : StoreOracle) (sess : String) (st : Store) (id : String)
    (value : JVal) : Except String Store :=
  let fullId := sess ++ "-" ++ id
  match oc.writeFails fullId with
  | some e => .error e
  | none => .ok (upsertRec st fullId (encodeJ value) sess)

/-- Model of `removeData(id)`: delete the record under `sessionPrefix + id`. -/
def removeData (oc : StoreOracle) (sess : String) (st : Store) (id : String) :
    Except String Store :=
  let fullId := sess ++ "-" ++ id
  match oc.deleteFails fullId with
  | some e => .error e
  | none => .ok (deleteRec st fullId)

/-- Model of `clearSessionData()` (lines 282-293): `deleteMany({session, _id: {$ne:
sessionPrefix + 'creds'}})` — keep a record iff it is outside the session or
is the credentials record. -/
def clearSessionData (sess : String) (st : Store) : Store :=
  st.filter (fun r => !(decide (r.session = sess) && decide (r.docId ≠ credsKey sess)))

/-- Model of `removeAllSessionData()` (lines 299-307): `deleteMany({session})`. -/
def removeAllSessionData (sess : String) (st : Store) : Store :=
  st.filter (fun r => decide (r.session ≠ sess))

/-! ## Key store facade: `keys.get` / `keys.set` (src/Mongo/index.ts, lines 335-386) -/

/-- Processing of one id inside `keys.get`: read `` `${type}-${id}` ``, apply
`fromObject` for the app-state-sync-key category when the value is truthy,
and catch *any* failure (read or reconstruction), mapping the id to `null`. -/
def keysGetOne (oc : StoreOracle) (sess : String) (st : Store) (type id : String) :
    Option JVal :=
  match readData oc sess st (type ++ "-" ++ id) with
  | .error _ => none
  | .ok none => none
  | .ok (some v) =>
      if type = "app-state-sync-key" && jTruthy v then
        match fromObject v with
        | .error _ => none
        | .ok v' => some v'
      else some v

/-- Model of `keys.get(type, ids)`: sequential loop over the ids; each iteration's
`try`/`catch` makes it independent of the others. -/
def keysGet (oc : StoreOracle) (sess : String) (st : Store) (type : String) :
    List String → List (String × Option JVal)
  | [] => []
  | id :: rest =>
      (id, keysGetOne oc sess st type id) :: keysGet oc sess st type rest

/-- One update inside `keys.set`: a truthy value is written under
`` `${category}-${id}` ``, a null/falsy one deletes that key. -/
def setEntry (oc : StoreOracle) (sess : String) (st : Store)
    (category id : String) (value : JVal) : Except String Store :=
  let dataKey := category ++ "-" ++ id
  if jTruthy value then writeData oc sess st dataKey value
  else removeData oc sess st dataKey

/-- The sequential update loop of `keys.set` over the flattened delta: a
failing update is logged and re-thrown, so the loop stops — updates already
performed stay applied, the remaining ones never run.  Returns the store
after the applied prefix together with the propagated error, if any. -/
def keysSetGo (oc : StoreOracle) (sess : String) :
    Store → List (String × String × JVal) → Store × Option String
  | st, [] => (st, none)
  | st, (c, i, v) :: rest =>
      match setEntry oc sess st c i v with
      | .error e => (st, some e)
      | .ok st' => keysSetGo oc sess st' rest

/-- Model of `keys.set(data)`: iterate categories in delta order, then ids within each
category (null-valued category maps are skipped by the `if (categoryData)`
guard; the model's delta lists only present maps). -/
def keysSet (oc : StoreOracle) (sess : String) (st : Store)
    (delta : List (String × List (String × JVal))) : Store × Option String :=
  keysSetGo oc sess st
    (delta.flatMap (fun p => p.2.map (fun q => (p.1, q.1, q.2))))

/-! ## Retrying storage gateway: `executeWithRetry` (src/Mongo/index.ts, lines 148-185)

Each loop iteration runs `ensureConnection()` and the operation body inside
one `try`; any failure is caught, and either a fixed `retryRequestDelayMs`
sleep precedes the next attempt (`attempt < maxRetries`) or a
`MongoConnectionError` wrapping the last failure is thrown.  The oracle
`op : Nat → Except String α` gives the combined outcome of attempt `n`
(connection setup plus operation body).  The model returns, along with the
outcome, the number of attempts executed and the list of sleeps performed. -/

/-- Model of `MongoConnectionError` as thrown on exhaustion: its message is built from
the operation name and the attempt count, and it wraps the last underlying
failure (`none` models the JS `undefined` of the degenerate
`maxRetries < 1` fall-through at line 181). -/
structure ConnFailure where
  opName : String
  attempts : Nat
  cause : Option String
deriving DecidableEq

structure RetryTrace (α : Type) where
  outcome : Except ConnFailure α
  attemptsUsed : Nat
  delays : List Nat

/-- The retry loop from attempt number `attempt`, with `fuel` iterations left
(`fuel = maxRetries - attempt + 1` at every call). -/
def retryGo (op : Nat → Except String α) (name : String) (maxR delay : Nat) :
    Nat → Nat → Option String → RetryTrace α
  | _, 0, lastErr => ⟨.error ⟨name, maxR, lastErr⟩, 0, []⟩
  | attempt, fuel + 1, _ =>
      match op attempt with
      | .ok a => ⟨.ok a, 1, []⟩
      | .error e =>
          if attempt < maxR then
            let t := retryGo op name maxR delay (attempt + 1) fuel (some e)
            ⟨t.outcome, t.attemptsUsed + 1, delay :: t.delays⟩
          else ⟨.error ⟨name, maxR, some e⟩, 1, []⟩

/-- Model of `executeWithRetry(operation, operationName)`. -/
def executeWithRetry (op : Nat → Except String α) (name : String)
    (maxR delay : Nat) : RetryTrace α :=
  retryGo op name maxR delay 1 maxR none

/-! ## Configuration and constructor (src/Mongo/index.ts, lines 70-103;
Types/index.ts `MongoConfig`) -/

/-- User-supplied `MongoConfig`; `none` models an omitted optional field.
`mongoOptions` is an opaque pass-through and is omitted. -/
structure MongoConfigIn where
  collectionName : Option String
  retryRequestDelayMs : Option Nat
  maxRetries : Option Nat
  session : String
  debug : Option Bool
deriving DecidableEq

/-- The resolved `Required<MongoConfig>` stored on the manager. -/
structure MongoConfigR where
  collectionName : String
  retryRequestDelayMs : Nat
  maxRetries : Nat
  session : String
  debug : Bool
deriving DecidableEq

/-- JS `x || default` on an optional string (both `undefined` and `""` are
falsy). -/
def orDefaultStr (x : Option String) (d : String) : String :=
  match x with
  | none => d
  | some s => if s = "" then d else s

/-- JS `x || default` on an optional number (`undefined` and `0` are falsy). -/
def orDefaultNat (x : Option Nat) (d : Nat) : Nat :=
  match x with
  | none => d
  | some n => if n = 0 then d else n

/-- The constructor: validate the URI and session id, resolve defaults
(`collectionName: 'baileys-auth'`, `retryRequestDelayMs: 200`,
`maxRetries: 10`, `debug: false`), then validate the collection name.
`Except.error` models a thrown `SessionValidationError`; the collection name
is never consulted again after this point — the schema binds the model to the
fixed collection `'baileys_sessions'` (line 43). -/
def mkManager (mongoURI : String) (cfg : MongoConfigIn) : Except String MongoConfigR :=
  if mongoURI = "" then .error "MongoDB URI is required and must be a string"
  else if !(isValidSessionId cfg.session) then
    .error "Valid session identifier is required"
  else
    let resolved : MongoConfigR :=
      ⟨orDefaultStr cfg.collectionName "baileys-auth",
       orDefaultNat cfg.retryRequestDelayMs 200,
       orDefaultNat cfg.maxRetries 10,
       cfg.session,
       cfg.debug.getD false⟩
    if !(isValidCollectionName resolved.collectionName) then
      .error ("Invalid collection name: " ++ resolved.collectionName)
    else .ok resolved

/-- The fixed physical collection every operation targets (schema option
`collection: 'baileys_sessions'`). -/
def boundCollectionName : String := "baileys_sessions"

/-! ## Observable storage operations, for configuration-equivalence claims -/

inductive SOp where
  | readOp (id : String) : SOp
  | writeOp (id : String) (v : JVal) : SOp
  | delOp (id : String) : SOp
  | clearOp : SOp
  | removeAllOp : SOp
deriving DecidableEq

/-- Run one operation against the store; the result pairs the new store with
the observable outcome (`.ok (some v)` for a successful read). -/
def runOp (cfg : MongoConfigR) (oc : StoreOracle) (st : Store) :
    SOp → Store × Except String (Option JVal)
  | .readOp id => (st, readData oc cfg.session st id)
  | .writeOp id v =>
      match writeData oc cfg.session st id v with
      | .error e => (st, .error e)
      | .ok st' => (st', .ok none)
  | .delOp id =>
      match removeData oc cfg.session st id with
      | .error e => (st, .error e)
      | .ok st' => (st', .ok none)
  | .clearOp => (clearSessionData cfg.session st, .ok none)
  | .removeAllOp => (removeAllSessionData cfg.session st, .ok none)

/-- Run a sequence of operations, collecting the observable outcomes. -/
def runOps (cfg : MongoConfigR) (oc : StoreOracle) :
    Store → List SOp → Store × List (Except String (Option JVal))
  | st, [] => (st, [])
  | st, op :: rest =>
      let p := runOp cfg oc st op
      let q := runOps cfg oc p.1 rest
      (q.1, p.2 :: q.2)

/-! ## Credential bootstrap: the registration id (src/Utils/index.ts, line 251)

`registrationId: (Uint16Array.from(randomBytes(2))[0] ?? 0) & 16383`.
`Uint16Array.from` iterates the buffer's *byte* elements, coercing each to a
16-bit value, so element `[0]` is the first random byte. -/

/-- The registration id computed from the raw random bytes. -/
def registrationIdOfBytes (bytes : List Nat) : Nat :=
  ((bytes.map (fun b => b % 65536)).headD 0) &&& 16383

theorem charSextet_sextetChar : ∀ n, n < 64 → charSextet (sextetChar n) = n := by
  decide

theorem sextetChar_ne_pad : ∀ n, n < 64 → sextetChar n ≠ '=' := by
  decide

theorem bytesToSextets_lt (bs : List Nat) (h : ∀ x ∈ bs, x < 256) :
    ∀ s ∈ bytesToSextets bs, s < 64 := by
  induction bs using bytesToSextets.induct with
  | case1 => simp [bytesToSextets]
  | case2 a =>
      have ha := h a (by simp)
      simp only [bytesToSextets, List.mem_cons, List.not_mem_nil, or_false]
      rintro s (rfl | rfl) <;> omega
  | case3 a b =>
      have ha := h a (by simp)
      have hb := h b (by simp)
      simp only [bytesToSextets, List.mem_cons, List.not_mem_nil, or_false]
      rintro s (rfl | rfl | rfl) <;> omega
  | case4 a b c rest ih =>
      have ha := h a (by simp)
      have hb := h b (by simp)
      have hc := h c (by simp)
      have hrest : ∀ x ∈ rest, x < 256 := by
        intro x hx; exact h x (by simp [hx])
      simp only [bytesToSextets, List.mem_cons]
      rintro s (rfl | rfl | rfl | rfl | hs)
      · omega
      · omega
      · omega
      · omega
      · exact ih hrest s hs

theorem sextetsToBytes_bytesToSextets (bs : List Nat) (h : ∀ x ∈ bs, x < 256) :
    sextetsToBytes (bytesToSextets bs) = bs := by
  induction bs using bytesToSextets.induct with
  | case1 => rfl
  | case2 a =>
      have ha := h a (by simp)
      simp only [bytesToSextets, sextetsToBytes]
      congr 1
      omega
  | case3 a b =>
      have ha := h a (by simp)
      have hb := h b (by simp)
      simp only [bytesToSextets, sextetsToBytes]
      congr 1
      · omega
      · congr 1; omega
  | case4 a b c rest ih =>
      have ha := h a (by simp)
      have hb := h b (by simp)
      have hc := h c (by simp)
      have hrest : ∀ x ∈ rest, x < 256 := by
        intro x hx; exact h x (by simp [hx])
      simp only [bytesToSextets, sextetsToBytes]
      rw [ih hrest]
      congr 1
      · omega
      · congr 1
        · omega
        · congr 1; omega

theorem filter_pad_replicate (n : Nat) :
    (List.replicate n '=').filter (fun c => c ≠ '=') = [] := by
  induction n with
  | zero => rfl
  | succ k ih => simp [List.replicate_succ, ih]

theorem map_charSextet_map_sextetChar (sx : List Nat) (h : ∀ s ∈ sx, s < 64) :
    (sx.map sextetChar).map charSextet = sx := by
  induction sx with
  | nil => rfl
  | cons a tl ih =>
      have ha := h a (by simp)
      have htl : ∀ s ∈ tl, s < 64 := fun s hs => h s (by simp [hs])
      simp [charSextet_sextetChar a ha, ih htl]

/-- Round trip of the modelled base64 codec on genuine byte lists. -/
theorem b64decode_b64encode (bs : List Nat) (h : ∀ x ∈ bs, x < 256) :
    b64decode (b64encode bs) = bs := by
  have hlt := bytesToSextets_lt bs h
  have htolist :
      (String.mk ((bytesToSextets bs).map sextetChar ++
        List.replicate (b64padding bs.length) '=')).toList =
      (bytesToSextets bs).map sextetChar ++
        List.replicate (b64padding bs.length) '=' := rfl
  have hfil : ((bytesToSextets bs).map sextetChar).filter (fun c => c ≠ '=') =
      (bytesToSextets bs).map sextetChar := by
    apply List.filter_eq_self.mpr
    intro c hc
    rcases List.mem_map.mp hc with ⟨s, hs, rfl⟩
    simpa using sextetChar_ne_pad s (hlt s hs)
  unfold b64encode b64decode
  rw [htolist, List.filter_append, hfil, filter_pad_replicate, List.append_nil,
    map_charSextet_map_sextetChar _ hlt, sextetsToBytes_bytesToSextets bs h]

/-! Round trip of the wire codec on well-formed values.  Decoding encoded
fields preserves the keys, so the reviver's `type === 'Buffer'` test sees the
original key layout. -/

mutual
theorem decodeJ_encodeJ (v : JVal) (h : goodVal v = true) :
    decodeJ (encodeJ v) = .ok v := by
  match v with
  | .jnull => rfl
  | .jbool b => rfl
  | .jnum n => rfl
  | .jnan => simp [goodVal] at h
  | .jstr s => rfl
  | .jbuf bs =>
      have hb : ∀ x ∈ bs, x < 256 := by simpa [goodVal] using h
      simp [encodeJ, decodeJ, decodeObj, jlookup, reviveBufferData,
        b64decode_b64encode bs hb]
  | .jarr xs =>
      have hxs : goodArr xs = true := by simpa [goodVal] using h
      simp [encodeJ, decodeJ, decodeArr_encodeArr xs hxs]
  | .jobj fs =>
      have h' := h
      simp only [goodVal, Bool.and_eq_true, decide_eq_true_eq] at h'
      obtain ⟨hne, hfs⟩ := h'
      simp [encodeJ, decodeJ, hne, decodeObj_encodeObj fs hfs]
theorem decodeArr_encodeArr (xs : JArr) (h : goodArr xs = true) :
    decodeArr (encodeArr xs) = .ok xs := by
  match xs with
  | .nil => rfl
  | .cons hd tl =>
      have h' := h
      simp only [goodArr, Bool.and_eq_true] at h'
      obtain ⟨h1, h2⟩ := h'
      simp [encodeArr, decodeArr, decodeJ_encodeJ hd h1,
        decodeArr_encodeArr tl h2]
theorem decodeObj_encodeObj (fs : JObj) (h : goodObj fs = true) :
    decodeObj (encodeObj fs) = .ok fs := by
  match fs with
  | .nil => rfl
  | .cons k v tl =>
      have h' := h
      simp only [goodObj, Bool.and_eq_true] at h'
      obtain ⟨h1, h2⟩ := h'
      simp [encodeObj, decodeObj, decodeJ_encodeJ v h1,
        decodeObj_encodeObj tl h2]
end
theorem fromObject_canonical (kd : List Nat) (r ci : Int) (ds : JArr) (t : Int)
    (h : ci ≠ 0 ∨ r = 0) :
    fromObject (mkAppDataSync kd r ci ds t) = .ok (mkAppDataSync kd r ci ds t) := by
  rcases h with h | h
  · simp [fromObject, mkAppDataSync, jgetD, jlookup, jsOr, jTruthy,
      parseTimestampJ, normalizeKeyData, h]
    by_cases hr : r = 0 <;> simp [hr]
  · subst h
    simp [fromObject, mkAppDataSync, jgetD, jlookup, jsOr, jTruthy,
      parseTimestampJ, normalizeKeyData]
    by_cases hc : ci = 0 <;> simp [hc]

/-! ## Helper lemmas -/

theorem findRec_upsertRec (st : Store) (k : String) (v : JVal) (s : String) :
    findRec (upsertRec st k v s) k = some ⟨k, v, s⟩ := by
  induction st with
  | nil => simp [upsertRec, findRec, List.find?]
  | cons r rest ih =>
      by_cases h : r.docId = k
      · simp [upsertRec, h, findRec, List.find?]
      · simpa [upsertRec, h, findRec, List.find?] using ih

theorem findRec_deleteRec (st : Store) (k : String) :
    findRec (deleteRec st k) k = none := by
  apply List.find?_eq_none.mpr
  intro x hx
  have hne := (List.mem_filter.mp hx).2
  simpa using hne

theorem keysSetGo_append (oc : StoreOracle) (sess : String) (st : Store)
    (l1 l2 : List (String × String × JVal)) :
    keysSetGo oc sess st (l1 ++ l2) =
      match keysSetGo oc sess st l1 with
      | (st', none) => keysSetGo oc sess st' l2
      | (st', some e) => (st', some e) := by
  induction l1 generalizing st with
  | nil => simp [keysSetGo]
  | cons u rest ih =>
      obtain ⟨c, i, v⟩ := u
      simp only [List.cons_append, keysSetGo]
      cases setEntry oc sess st c i v with
      | error e => rfl
      | ok st' => exact ih st'

/-! ## Claims -/

/-- Claim C1 (counterexample): the storage-key map is *not* injective over the
full `(session, category, id)` triple.  With the valid session `"a"` and the
two fixed categories `"sender-key"` and `"sender-key-memory"`, the distinct
triples `("a", "sender-key", "memory-x")` and `("a", "sender-key-memory", "x")`
resolve to the same storage key `"a-sender-key-memory-x"`. -/
theorem resolveKey_not_injective :
    isValidSessionId "a" = true ∧
    "sender-key" ∈ signalCategories ∧
    "sender-key-memory" ∈ signalCategories ∧
    (("sender-key" : String), ("memory-x" : String)) ≠ ("sender-key-memory", "x") ∧
    resolveKey "a" "sender-key" "memory-x" = resolveKey "a" "sender-key-memory" "x" := by
  refine ⟨by decide, by decide, by decide, by decide, ?_⟩
  rfl

/-- Claim C1 (amended): for every fixed session and category, the resolved
storage key `session + "-" + category + "-" + id` is injective in the key id.
Full injectivity over the triple fails because both session identifiers and
the fixed category names may contain hyphens (`sender-key` is a proper prefix
of `sender-key-memory`). -/
theorem resolveKey_injective_in_id (s c i1 i2 : String)
    (h : resolveKey s c i1 = resolveKey s c i2) : i1 = i2 := by
  have hd := congrArg String.data h
  simp only [resolveKey, String.data_append] at hd
  have : i1.data = i2.data := by simpa [List.append_assoc] using hd
  exact String.ext this

theorem resolveKey_injective_in_id_witness :
    resolveKey "a" "pre-key" "x1" = resolveKey "a" "pre-key" "x1" ∧ ("x1" : String) = "x1" :=
  ⟨rfl, resolveKey_injective_in_id "a" "pre-key" "x1" "x1" rfl⟩

/-- Claim C8: `clearSessionData()` keeps exactly the records that are outside
the configured session or are its credentials record (key
`session + "-creds"`); `removeAllSessionData()` keeps exactly the records of
other sessions.  In both cases every kept record is unchanged (the surviving
records are those of the original store). -/
theorem clear_and_removeAll_exact (sess : String) (st : Store) (r : SessionRecord) :
    (r ∈ clearSessionData sess st ↔
      r ∈ st ∧ (r.session ≠ sess ∨ r.docId = credsKey sess)) ∧
    (r ∈ removeAllSessionData sess st ↔ r ∈ st ∧ r.session ≠ sess) := by
  constructor
  · simp only [clearSessionData, List.mem_filter, Bool.not_eq_true',
      Bool.and_eq_false_iff, decide_eq_false_iff_not, not_not,
      decide_eq_true_eq]
  · simp [removeAllSessionData, List.mem_filter]

/-- Claim C9: the bootstrap registration id is confined to a single byte.
`Uint16Array.from(randomBytes(2))` yields the per-byte elements, so element
`[0]` is the first random byte (< 256), and masking with `& 16383` leaves a
byte unchanged; the nominal 14-bit space `[0, 16383]` is never used beyond
255. -/
theorem registrationId_single_byte (bytes : List Nat) (h : ∀ b ∈ bytes, b < 256) :
    registrationIdOfBytes bytes ≤ 255 ∧
    registrationIdOfBytes bytes = bytes.headD 0 := by
  have hmask : ∀ x : Nat, x < 256 → x &&& 16383 = x := by
    intro x hx
    have hpow : (2 : Nat) ^ 14 = 16384 := by norm_num
    have hx2 : x < 2 ^ 14 := by omega
    have he : (2 : Nat) ^ 14 - 1 = 16383 := by norm_num
    have hm := Nat.and_pow_two_sub_one_of_lt_two_pow hx2
    rwa [he] at hm
  cases bytes with
  | nil => exact ⟨by decide, rfl⟩
  | cons b rest =>
      have hb := h b (by simp)
      have hbm : b % 65536 = b := Nat.mod_eq_of_lt (by omega)
      have : registrationIdOfBytes (b :: rest) = b := by
        simp [registrationIdOfBytes, hbm, hmask b hb]
      constructor
      · rw [this]; omega
      · rw [this]; rfl

theorem registrationId_single_byte_witness :
    registrationIdOfBytes [200, 17] ≤ 255 ∧ registrationIdOfBytes [200, 17] = 200 :=
  registrationId_single_byte [200, 17] (by decide)

/-- Claim C5 (counterexample): timestamp normalization does *not* raise
`ValidationError` on every input whose parse fails to yield a number.  An
object exposing only generic stringification (e.g. a plain object, whose
`toString()` is `"[object Object]"`) goes through the unchecked
`parseInt(timestamp.toString(), 10)` fallback and returns `NaN` silently. -/
theorem parseTimestamp_silent_nan :
    parseTimestamp (.objToString "[object Object]") = .ok none ∧
    (Except.ok none : Except Unit (Option Int)) ≠ .error () := by
  constructor
  · rfl
  · intro h
    exact Except.noConfusion h

/-- Claim C5 (amended): timestamp normalization parses base-10 numeric strings
(raising `ValidationError` — modelled as `.error` — when the string parse
yields NaN), passes native numbers through, uses a `toNumber` accessor when
present, and otherwise parses the generic stringification of a truthy object
*without* a NaN check — a non-numeric stringification yields the number `NaN`
rather than an error; only inputs with none of these shapes (e.g. `null`)
raise `ValidationError`. -/
theorem parseTimestamp_spec :
    (∀ s n, parseIntJs s = some n → parseTimestamp (.str s) = .ok (some n)) ∧
    (∀ s, parseIntJs s = none → parseTimestamp (.str s) = .error ()) ∧
    (∀ n, parseTimestamp (.num n) = .ok n) ∧
    (∀ n, parseTimestamp (.objToNumber n) = .ok n) ∧
    (∀ s, parseTimestamp (.objToString s) = .ok (parseIntJs s)) ∧
    parseTimestamp .nullish = .error () := by
  refine ⟨fun s n h => ?_, fun s h => ?_, fun n => rfl, fun n => rfl, fun s => rfl, rfl⟩
  · simp [parseTimestamp, h]
  · simp [parseTimestamp, h]

theorem parseTimestamp_spec_witness :
    parseTimestamp (.str "1690000000") = .ok (some 1690000000) ∧
    parseTimestamp (.num (some 1690000000)) = .ok (some 1690000000) ∧
    parseTimestamp (.objToNumber (some 42)) = .ok (some 42) ∧
    parseTimestamp (.str "not-a-number") = .error () :=
  ⟨parseTimestamp_spec.1 "1690000000" 1690000000 (by decide),
   parseTimestamp_spec.2.2.1 (some 1690000000),
   parseTimestamp_spec.2.2.2.1 (some 42),
   parseTimestamp_spec.2.1 "not-a-number" (by decide)⟩

/-- Claim C6 (counterexample): the codec round trip is *not* exact on every
nested structure of primitive JSON values: a plain object that happens to
carry `type: "Buffer"` with a string `data` field survives encoding
unchanged, but the reviver turns it into an actual buffer
(`Buffer.from("AA", 'base64') = <0x00>`). -/
theorem bufferJSON_roundtrip_counterexample :
    decodeJ (encodeJ (.jobj (.cons "type" (.jstr "Buffer")
        (.cons "data" (.jstr "AA") .nil)))) = .ok (.jbuf [0]) ∧
    (JVal.jbuf [0]) ≠
      .jobj (.cons "type" (.jstr "Buffer") (.cons "data" (.jstr "AA") .nil)) := by
  constructor
  · rfl
  · intro h
    exact JVal.noConfusion h

/-- Claim C6 (amended): `decode(encode(x)) = x` holds for every binary payload
and every nested structure of buffers and primitive JSON values, *provided*
no plain object in the structure itself carries a `type: "Buffer"` field
(and buffers hold genuine bytes) — the `goodVal` well-formedness predicate. -/
theorem bufferJSON_roundtrip (v : JVal) (h : goodVal v = true) :
    decodeJ (encodeJ v) = .ok v :=
  decodeJ_encodeJ v h

theorem bufferJSON_roundtrip_witness :
    decodeJ (encodeJ (.jobj (.cons "a" (.jbuf [0, 1, 255])
        (.cons "b" (.jarr (.cons (.jbuf [5]) (.cons (.jnum 3)
          (.cons (.jstr "x") .nil)))) .nil)))) =
      .ok (.jobj (.cons "a" (.jbuf [0, 1, 255])
        (.cons "b" (.jarr (.cons (.jbuf [5]) (.cons (.jnum 3)
          (.cons (.jstr "x") .nil)))) .nil))) :=
  bufferJSON_roundtrip _ (by decide)

/-- Claim C7: a `get` on an id that was never written returns the explicit
absent value (the gateway read succeeds with `null`; no error is raised), and
— for *arbitrary* prior state, in particular for an id that was previously
written — `set({cat:{id:null}})` deletes the record, succeeds, and a
following `get` returns absent.  In both cases the outcome is
`Except.ok`/a `none` entry, structurally distinct from the error outcome. -/
theorem get_unwritten_and_set_null_absent (sess cat id : String) (st : Store) :
    (findRec st (sess ++ "-" ++ (cat ++ "-" ++ id)) = none →
      readData noFailures sess st (cat ++ "-" ++ id) = .ok none ∧
      keysGet noFailures sess st cat [id] = [(id, none)]) ∧
    ((keysSet noFailures sess st [(cat, [(id, JVal.jnull)])]).1 =
       deleteRec st (sess ++ "-" ++ (cat ++ "-" ++ id)) ∧
     (keysSet noFailures sess st [(cat, [(id, JVal.jnull)])]).2 = none ∧
     keysGet noFailures sess
       ((keysSet noFailures sess st [(cat, [(id, JVal.jnull)])]).1) cat [id]
       = [(id, none)]) := by
  constructor
  · intro h
    exact ⟨by simp [readData, noFailures, h],
      by simp [keysGet, keysGetOne, readData, noFailures, h]⟩
  · have hset : keysSet noFailures sess st [(cat, [(id, JVal.jnull)])] =
        (deleteRec st (sess ++ "-" ++ (cat ++ "-" ++ id)), none) := by
      simp [keysSet, keysSetGo, setEntry, jTruthy, removeData, noFailures]
    rw [hset]
    have hfind := findRec_deleteRec st (sess ++ "-" ++ (cat ++ "-" ++ id))
    exact ⟨rfl, rfl, by simp [keysGet, keysGetOne, readData, noFailures, hfind]⟩

theorem get_unwritten_and_set_null_absent_witness :
    (readData noFailures "s" [] ("session" ++ "-" ++ "x") = .ok none ∧
     keysGet noFailures "s" [] "session" ["x"] = [("x", none)]) ∧
    ((keysSet noFailures "s" [⟨"s-session-x", encodeJ (.jbuf [1]), "s"⟩]
        [("session", [("x", JVal.jnull)])]).2 = none ∧
     keysGet noFailures "s"
       ((keysSet noFailures "s" [⟨"s-session-x", encodeJ (.jbuf [1]), "s"⟩]
          [("session", [("x", JVal.jnull)])]).1)
       "session" ["x"] = [("x", none)]) :=
  ⟨(get_unwritten_and_set_null_absent "s" "session" "x" []).1 (by rfl),
   (get_unwritten_and_set_null_absent "s" "session" "x"
      [⟨"s-session-x", encodeJ (.jbuf [1]), "s"⟩]).2.2⟩

/-- Claim C2 (counterexample): `set` followed by `get` is *not* deep-equal for
every value of the app-state-sync-key category.  `fromObject`'s fingerprint
defaulting uses JS `||`, so a stored value with `currentIndex = 0` and
`rawId = 5` comes back with `currentIndex = 5`: the retrieved value differs
from the stored one in the `currentIndex` field. -/
theorem keys_set_then_get_counterexample :
    keysGet noFailures "s" ((keysSet noFailures "s" []
        [("app-state-sync-key", [("k", mkAppDataSync [1] 5 0 .nil 7)])]).1)
      "app-state-sync-key" ["k"]
      = [("k", some (mkAppDataSync [1] 5 5 .nil 7))] ∧
    mkAppDataSync [1] 5 5 .nil 7 ≠ mkAppDataSync [1] 5 0 .nil 7 := by
  constructor
  · rfl
  · decide

/-- Claim C2 (amended): for every category, id and well-formed truthy value,
`set({cat:{id:v}})` followed by `get(cat,[id])` returns exactly the stored
value — except that for the app-state-sync-key category the result is the
`fromObject` reconstruction, whose fingerprint defaulting uses JS falsiness
(a *zero* `currentIndex` also falls back to `rawId`, `deviceIndexes` defaults
to `[]` unless it is an array); the result is deep-equal to `v` precisely
when that reconstruction leaves `v` unchanged, e.g. for canonical structured
values with nonzero `currentIndex` (or zero `rawId`). -/
theorem keys_set_then_get (sess cat id : String) (st : Store) (v : JVal)
    (hcat : cat ∈ signalCategories)
    (hv : goodVal v = true) (htr : jTruthy v = true)
    (happ : cat = "app-state-sync-key" → fromObject v = .ok v) :
    keysGet noFailures sess
      ((keysSet noFailures sess st [(cat, [(id, v)])]).1) cat [id]
      = [(id, some v)] := by
  have hset : (keysSet noFailures sess st [(cat, [(id, v)])]).1 =
      upsertRec st (sess ++ "-" ++ (cat ++ "-" ++ id)) (encodeJ v) sess := by
    simp [keysSet, keysSetGo, setEntry, htr, writeData, noFailures]
  rw [hset]
  have hfind := findRec_upsertRec st (sess ++ "-" ++ (cat ++ "-" ++ id)) (encodeJ v) sess
  have hread : readData noFailures sess
      (upsertRec st (sess ++ "-" ++ (cat ++ "-" ++ id)) (encodeJ v) sess)
      (cat ++ "-" ++ id) = .ok (some v) := by
    simp [readData, noFailures, hfind, decodeJ_encodeJ v hv]
  by_cases hc : cat = "app-state-sync-key"
  · subst hc
    have happ' := happ rfl
    simp only [keysGet, keysGetOne]
    rw [hread]
    simp [htr, happ']
  · simp only [keysGet, keysGetOne]
    rw [hread]
    simp [htr, hc]

theorem keys_set_then_get_witness :
    keysGet noFailures "s" ((keysSet noFailures "s" []
        [("pre-key", [("k1", JVal.jobj (.cons "public" (.jbuf [1])
          (.cons "private" (.jbuf [2]) .nil)))])]).1) "pre-key" ["k1"]
      = [("k1", some (JVal.jobj (.cons "public" (.jbuf [1])
          (.cons "private" (.jbuf [2]) .nil))))] ∧
    keysGet noFailures "s" ((keysSet noFailures "s" []
        [("app-state-sync-key", [("k2", mkAppDataSync [9] 5 1 .nil 7)])]).1)
      "app-state-sync-key" ["k2"]
      = [("k2", some (mkAppDataSync [9] 5 1 .nil 7))] :=
  ⟨keys_set_then_get "s" "pre-key" "k1" []
      (JVal.jobj (.cons "public" (.jbuf [1]) (.cons "private" (.jbuf [2]) .nil)))
      (by decide) (by decide) (by decide)
      (fun h => absurd h (by decide)),
   keys_set_then_get "s" "app-state-sync-key" "k2" []
      (mkAppDataSync [9] 5 1 .nil 7)
      (by decide) (by decide) (by decide)
      (fun _ => fromObject_canonical [9] 5 1 .nil 7 (Or.inl (by decide)))⟩

/-! Retry-loop helper lemmas. -/

theorem retryGo_fail_then_ok {α : Type} (op : Nat → Except String α)
    (name : String) (maxR delay : Nat) (errs : Nat → String) (a : α) :
    ∀ (fuel attempt : Nat) (lastErr : Option String),
      attempt + fuel = maxR + 1 → 1 ≤ fuel →
      (∀ i, attempt ≤ i → i < maxR → op i = .error (errs i)) →
      op maxR = .ok a →
      retryGo op name maxR delay attempt fuel lastErr =
        ⟨.ok a, fuel, List.replicate (fuel - 1) delay⟩ := by
  intro fuel
  induction fuel with
  | zero => intro attempt lastErr _ h1; omega
  | succ f ih =>
      intro attempt lastErr hsum _ hop hlast
      by_cases hf : f = 0
      · subst hf
        have : attempt = maxR := by omega
        subst this
        simp [retryGo, hlast]
      · have hlt : attempt < maxR := by omega
        have he := hop attempt (Nat.le_refl _) hlt
        have hrec := ih (attempt + 1) (some (errs attempt)) (by omega) (by omega)
          (fun i hi hi2 => hop i (by omega) hi2) hlast
        simp only [retryGo, he, if_pos hlt, hrec]
        refine congrArg (RetryTrace.mk (.ok a) (f + 1)) ?_
        have : f - 1 + 1 = f := by omega
        rw [← this, ← List.replicate_succ]
        simp [this]

theorem retryGo_all_fail {α : Type} (op : Nat → Except String α)
    (name : String) (maxR delay : Nat) (errs : Nat → String) :
    ∀ (fuel attempt : Nat) (lastErr : Option String),
      attempt + fuel = maxR + 1 → 1 ≤ fuel →
      (∀ i, attempt ≤ i → i ≤ maxR → op i = .error (errs i)) →
      retryGo op name maxR delay attempt fuel lastErr =
        ⟨.error ⟨name, maxR, some (errs maxR)⟩, fuel,
          List.replicate (fuel - 1) delay⟩ := by
  intro fuel
  induction fuel with
  | zero => intro attempt lastErr _ h1; omega
  | succ f ih =>
      intro attempt lastErr hsum _ hop
      by_cases hf : f = 0
      · subst hf
        have : attempt = maxR := by omega
        subst this
        have he := hop attempt (Nat.le_refl _) (Nat.le_refl _)
        simp [retryGo, he]
      · have hlt : attempt < maxR := by omega
        have he := hop attempt (Nat.le_refl _) (by omega)
        have hrec := ih (attempt + 1) (some (errs attempt)) (by omega) (by omega)
          (fun i hi hi2 => hop i (by omega) hi2)
        simp only [retryGo, he, if_pos hlt, hrec]
        refine congrArg (RetryTrace.mk _ (f + 1)) ?_
        have : f - 1 + 1 = f := by omega
        rw [← this, ← List.replicate_succ]
        simp [this]

/-- Claim C3: for every gateway operation run through `executeWithRetry` with
`maxRetries ≥ 1`: if the operation fails on attempts `1..maxRetries-1` and
succeeds on attempt `maxRetries`, the call returns that success after exactly
`maxRetries` attempts with the configured fixed delay slept between each pair
of consecutive attempts; if every attempt fails, the call raises
`MongoConnectionError` annotated with the operation name and the attempt
count `maxRetries` and wrapping the last underlying failure, again after
exactly `maxRetries` attempts. -/
theorem executeWithRetry_spec {α : Type} (op : Nat → Except String α)
    (name : String) (maxR delay : Nat) (hmax : 1 ≤ maxR)
    (errs : Nat → String) (a : α) :
    ((∀ i, 1 ≤ i → i < maxR → op i = .error (errs i)) → op maxR = .ok a →
      executeWithRetry op name maxR delay =
        ⟨.ok a, maxR, List.replicate (maxR - 1) delay⟩) ∧
    ((∀ i, 1 ≤ i → i ≤ maxR → op i = .error (errs i)) →
      executeWithRetry op name maxR delay =
        ⟨.error ⟨name, maxR, some (errs maxR)⟩, maxR,
          List.replicate (maxR - 1) delay⟩) := by
  constructor
  · intro hop hlast
    exact retryGo_fail_then_ok op name maxR delay errs a maxR 1 none
      (by omega) (by omega) hop hlast
  · intro hop
    exact retryGo_all_fail op name maxR delay errs maxR 1 none
      (by omega) (by omega) hop

theorem executeWithRetry_spec_witness :
    executeWithRetry (fun i => if i < 3 then .error "boom" else .ok 42)
        "Write data k" 3 7 = ⟨.ok 42, 3, [7, 7]⟩ ∧
    executeWithRetry (fun _ => (.error "down" : Except String Nat))
        "Write data k" 3 7 =
      ⟨.error ⟨"Write data k", 3, some "down"⟩, 3, [7, 7]⟩ :=
  ⟨(executeWithRetry_spec (fun i => if i < 3 then .error "boom" else .ok 42)
      "Write data k" 3 7 (by omega) (fun _ => "boom") 42).1
      (by intro i h1 h2
          have : i = 1 ∨ i = 2 := by omega
          rcases this with h | h <;> subst h <;> rfl)
      (by rfl),
   (executeWithRetry_spec (fun _ => (.error "down" : Except String Nat))
      "Write data k" 3 7 (by omega) (fun _ => "down") 0).2
      (fun i _ _ => rfl)⟩

/-- Claim C4: inside `keys.get`, every id is processed independently — the
returned mapping lists each requested id with its individually computed
value, and an id whose gateway read fails maps to absent instead of aborting
the loop; inside `keys.set`, the first failing write/delete stops the loop:
the store keeps exactly the updates applied before the failure, the error is
re-raised, and the remaining updates (of that whole `set` call) never run. -/
theorem keysGet_isolates_keysSet_aborts :
    (∀ (oc : StoreOracle) (sess : String) (st : Store) (type : String)
      (ids : List String),
      keysGet oc sess st type ids =
        ids.map (fun i => (i, keysGetOne oc sess st type i))) ∧
    (∀ (oc : StoreOracle) (sess : String) (st : Store) (type id e : String),
      readData oc sess st (type ++ "-" ++ id) = .error e →
      keysGetOne oc sess st type id = none) ∧
    (∀ (oc : StoreOracle) (sess : String) (st st' : Store)
      (l1 : List (String × String × JVal)) (c i : String) (v : JVal)
      (rest : List (String × String × JVal)) (e : String),
      keysSetGo oc sess st l1 = (st', none) →
      setEntry oc sess st' c i v = .error e →
      keysSetGo oc sess st (l1 ++ (c, i, v) :: rest) = (st', some e)) := by
  refine ⟨?_, ?_, ?_⟩
  · intro oc sess st type ids
    induction ids with
    | nil => rfl
    | cons hd tl ih => simp [keysGet, ih]
  · intro oc sess st type id e h
    simp [keysGetOne, h]
  · intro oc sess st st' l1 c i v rest e h1 h2
    rw [keysSetGo_append, h1]
    simp [keysSetGo, h2]

theorem keysGet_isolates_keysSet_aborts_witness :
    (keysGet noFailures "s"
        [⟨"s-session-x", .jobj (.cons "type" (.jstr "Buffer")
            (.cons "data" (.jnum 1) .nil)), "s"⟩,
         ⟨"s-session-y", .jstr "ok", "s"⟩]
        "session" ["x", "y"] =
      ["x", "y"].map (fun i => (i, keysGetOne noFailures "s"
        [⟨"s-session-x", .jobj (.cons "type" (.jstr "Buffer")
            (.cons "data" (.jnum 1) .nil)), "s"⟩,
         ⟨"s-session-y", .jstr "ok", "s"⟩] "session" i))) ∧
    keysGetOne noFailures "s"
        [⟨"s-session-x", .jobj (.cons "type" (.jstr "Buffer")
            (.cons "data" (.jnum 1) .nil)), "s"⟩,
         ⟨"s-session-y", .jstr "ok", "s"⟩] "session" "x" = none ∧
    keysSetGo ⟨fun _ => none,
        fun k => if k = "s-pre-key-b" then some "write failed" else none,
        fun _ => none⟩ "s" []
      ([("pre-key", "a", .jbuf [1])] ++ ("pre-key", "b", .jbuf [2]) ::
        [("pre-key", "c", .jbuf [3])]) =
      ([⟨"s-pre-key-a", encodeJ (.jbuf [1]), "s"⟩], some "write failed") :=
  ⟨keysGet_isolates_keysSet_aborts.1 noFailures "s" _ "session" ["x", "y"],
   keysGet_isolates_keysSet_aborts.2.1 noFailures "s" _ "session" "x"
     "Failed to read data for ID: session-x" (by rfl),
   keysGet_isolates_keysSet_aborts.2.2 ⟨fun _ => none,
       fun k => if k = "s-pre-key-b" then some "write failed" else none,
       fun _ => none⟩ "s" [] [⟨"s-pre-key-a", encodeJ (.jbuf [1]), "s"⟩]
     [("pre-key", "a", .jbuf [1])] "pre-key" "b" (.jbuf [2])
     [("pre-key", "c", .jbuf [3])] "write failed" (by rfl) (by rfl)⟩

/-! Configuration-equivalence helper lemmas. -/

theorem mkManager_ok_session (uri : String) (c : MongoConfigIn) (r : MongoConfigR)
    (h : mkManager uri c = .ok r) : r.session = c.session := by
  simp only [mkManager] at h
  split at h
  · exact Except.noConfusion h
  · split at h
    · exact Except.noConfusion h
    · split at h
      · exact Except.noConfusion h
      · cases h
        rfl

theorem runOp_session_only (c1 c2 : MongoConfigR) (h : c1.session = c2.session)
    (oc : StoreOracle) (st : Store) (op : SOp) :
    runOp c1 oc st op = runOp c2 oc st op := by
  cases op <;> simp [runOp, h]

theorem runOps_session_only (c1 c2 : MongoConfigR) (h : c1.session = c2.session)
    (oc : StoreOracle) (st : Store) (ops : List SOp) :
    runOps c1 oc st ops = runOps c2 oc st ops := by
  induction ops generalizing st with
  | nil => rfl
  | cons op rest ih =>
      simp only [runOps, runOp_session_only c1 c2 h oc st op, ih]

/-- Claim C10: two valid configurations that differ only in `collectionName`
yield managers whose every sequence of read/write/delete/clear/remove-all
operations produces identical observable results and identical stored
records: after construction-time validation, the configured collection name
is never consulted — the storage model is bound to the fixed collection
`'baileys_sessions'`. -/
theorem collectionName_immaterial (uri : String) (cfg : MongoConfigIn)
    (n1 n2 : Option String) (r1 r2 : MongoConfigR)
    (h1 : mkManager uri
      ⟨n1, cfg.retryRequestDelayMs, cfg.maxRetries, cfg.session, cfg.debug⟩ = .ok r1)
    (h2 : mkManager uri
      ⟨n2, cfg.retryRequestDelayMs, cfg.maxRetries, cfg.session, cfg.debug⟩ = .ok r2) :
    ∀ (oc : StoreOracle) (st : Store) (ops : List SOp),
      runOps r1 oc st ops = runOps r2 oc st ops := by
  intro oc st ops
  have e1 := mkManager_ok_session _ _ _ h1
  have e2 := mkManager_ok_session _ _ _ h2
  exact runOps_session_only r1 r2 (by rw [e1, e2]) oc st ops

theorem collectionName_immaterial_witness :
    runOps ⟨"colA", 200, 10, "s", false⟩ noFailures []
      [SOp.writeOp "pre-key-k" (.jbuf [1]), SOp.readOp "pre-key-k", SOp.clearOp] =
    runOps ⟨"colB", 200, 10, "s", false⟩ noFailures []
      [SOp.writeOp "pre-key-k" (.jbuf [1]), SOp.readOp "pre-key-k", SOp.clearOp] :=
  collectionName_immaterial "mongodb://h" ⟨none, none, none, "s", none⟩
    (some "colA") (some "colB")
    ⟨"colA", 200, 10, "s", false⟩ ⟨"colB", 200, 10, "s", false⟩ (by rfl) (by rfl)
    noFailures []
    [SOp.writeOp "pre-key-k" (.jbuf [1]), SOp.readOp "pre-key-k", SOp.clearOp]

end WSM
